import Mathlib

/-!
# Verification of sauron's DOM patch application, rendering and task model

Shallow embedding of the code in `src/dom/apply_patches.rs`,
`crates/sauron-core/src/render.rs` and `crates/sauron-core/src/dom/task.rs`
of the `videah/sauron` repository, together with proofs about the embedded
functions.

Rust `Result<T, JsValue>` values are modelled by `Res`, which additionally
has a `panicked` constructor for Rust panics (`expect`, `unreachable!`,
`unimplemented!`, arithmetic overflow checks): a panic aborts the whole
operation and is distinct from an `Err` value returned to the caller.

Host-tree (web-sys) side effects are made observable through an event trace
(`Ev`): every call into the host tree appends one event.  Host operations
themselves are modelled as always succeeding.
-/

set_option maxHeartbeats 1000000
set_option linter.unusedVariables false

namespace Sauron

/-- Outcome of running a fallible Rust computation: `ok` models `Ok`,
`jsErr` models `Err(JsValue)` propagated with `?`, and `panicked` models a
Rust panic (process abort), which is not an error value seen by the caller. -/
inductive Res (α : Type) where
  | ok : α → Res α
  | jsErr : String → Res α
  | panicked : String → Res α
  deriving Repr, DecidableEq

namespace Res

def bind {α β : Type} : Res α → (α → Res β) → Res β
  | .ok a, f => f a
  | .jsErr e, _ => .jsErr e
  | .panicked m, _ => .panicked m

/-- Is this outcome a success? -/
def isOk {α : Type} : Res α → Bool
  | .ok _ => true
  | _ => false

/-- Is this outcome a panic (abort)? -/
def isPanic {α : Type} : Res α → Bool
  | .panicked _ => true
  | _ => false

/-- Is this outcome an `Err` value (a `JsValue` returned to the caller)? -/
def isJsErr {α : Type} : Res α → Bool
  | .jsErr _ => true
  | _ => false

end Res

/-- A live host-tree node (`web_sys::Node`).  Element state that the patched
code touches through dedicated setters (`set_value`, `set_checked`,
`set_inner_html`) is kept in dedicated fields, distinct from the attribute
map, mirroring how the DOM separates reflected properties from attributes.
`unsupported` stands for any node whose `node_type` is none of
ELEMENT_NODE / TEXT_NODE / COMMENT_NODE. -/
inductive DomNode where
  | element (tag : String) (attrs : List (String × String))
      (value : String) (checked : Bool) (innerHtml : String)
      (children : List DomNode)
  | text (s : String)
  | comment (s : String)
  | unsupported (nodeType : Nat) (children : List DomNode)
  deriving Repr, BEq

namespace DomNode

/-- `Node::child_nodes()` — all child nodes, of every kind. -/
def child_nodes : DomNode → List DomNode
  | .element _ _ _ _ _ cs => cs
  | .unsupported _ cs => cs
  | _ => []

/-- `Element::get_attribute`: first binding of the name, if any. -/
def get_attribute (n : DomNode) (name : String) : Option String :=
  match n with
  | .element _ attrs _ _ _ _ => (attrs.lookup name)
  | _ => none

/-- `dyn_ref::<HtmlInputElement>()` succeeds exactly on `<input>` elements. -/
def isInput : DomNode → Bool
  | .element tag _ _ _ _ _ => tag == "input"
  | _ => false

/-- `dyn_ref::<HtmlTextAreaElement>()` succeeds exactly on `<textarea>`. -/
def isTextArea : DomNode → Bool
  | .element tag _ _ _ _ _ => tag == "textarea"
  | _ => false

def isComment : DomNode → Bool
  | .comment _ => true
  | _ => false

def isElement : DomNode → Bool
  | .element _ _ _ _ _ _ => true
  | _ => false

def isTextNode : DomNode → Bool
  | .text _ => true
  | _ => false

end DomNode

/-- The reserved marker attribute `created_node::DATA_SAURON_VDOM_ID` that
carries an element's `vdom_id` as a decimal string. -/
def DATA_SAURON_VDOM_ID : String := "data-sauron-vdom-id"

/-- An attached event callback: `(event_name, closure handle)`.  Closure
handles are opaque; we number them. -/
abbrev EventCb := String × Nat

/-- `ActiveClosure = HashMap<u32, Vec<(String, Closure)>>`, modelled as an
association list from `vdom_id` to the callback list.  Keys are unique in
every list built by the code (`HashMap` semantics). -/
abbrev ActiveClosure := List (Nat × List EventCb)

namespace ActiveClosure

/-- `HashMap::get`. -/
def get (m : ActiveClosure) (k : Nat) : Option (List EventCb) :=
  (m.lookup k)

/-- `HashMap::remove`, returning the remaining map when the key was present
(the code always `expect`s the removed value, so we only need presence). -/
def remove (m : ActiveClosure) (k : Nat) : ActiveClosure :=
  m.filter (fun kv => kv.1 ≠ k)

/-- `HashMap::insert` (fresh keys in this code base). -/
def insert (m : ActiveClosure) (k : Nat) (v : List EventCb) : ActiveClosure :=
  m ++ [(k, v)]

/-- `HashMap::extend`: add all entries of `other` (keys are disjoint in this
code base, so appending is an adequate model). -/
def extend (m other : ActiveClosure) : ActiveClosure :=
  m ++ other

end ActiveClosure

/-- Observable host-tree side effects, in the order the code performs them. -/
inductive Ev where
  /-- `CreatedNode::create_dom_node_opt` was invoked (the Dispatcher built a
  live subtree). -/
  | build
  /-- `remove_event_listener_with_callback(event, func)`. -/
  | unregister (event : String) (cb : Nat)
  /-- `replace_with_with_node_1`. -/
  | replaceWith
  /-- `remove_child` of the current last child. -/
  | removeChild
  /-- `append_child`. -/
  | appendChild
  | setAttribute (name val : String)
  | removeAttribute (name : String)
  | setValue (v : String)
  | setChecked (b : Bool)
  | setInnerHtml (s : String)
  | setNodeValue (s : String)
  deriving Repr, DecidableEq

/-- Decimal accumulation over the characters of a string, rejecting
non-digits. -/
def parseDigits : List Char → Nat → Option Nat
  | [], acc => some acc
  | c :: cs, acc =>
    if '0' ≤ c ∧ c ≤ '9' then
      parseDigits cs (acc * 10 + (c.toNat - Char.toNat '0'))
    else none

/-- Model of `str::parse::<u32>`: all-decimal non-empty strings whose value
fits in 32 bits parse; everything else is a parse error. -/
def parse_u32 (s : String) : Option Nat :=
  match s.data with
  | [] => none
  | l =>
    match parseDigits l 0 with
    | some n => if n < 2 ^ 32 then some n else none
    | none => none

/-- Reading and parsing of the marker attribute of one element:
`get_attribute(DATA_SAURON_VDOM_ID)` followed by `parse::<u32>().expect(..)`
(absent attribute contributes nothing; a malformed or out-of-`u32`-range
value panics). -/
def own_vdom_id (attrs : List (String × String)) : Res (List Nat) :=
  match (attrs.lookup DATA_SAURON_VDOM_ID) with
  | some s =>
    match parse_u32 s with
    | some n => .ok [n]
    | none => .panicked "unable to parse sauron_vdom-id"
  | none => .ok []

mutual

/-- `get_node_descendant_data_vdom_id`: read the marker attribute of the
element itself, then recurse into `ELEMENT_NODE` children only, self first.
Called through `unchecked_ref::<Element>` it may also receive non-element
nodes, which carry no attributes and no element children. -/
def get_node_descendant_data_vdom_id : DomNode → Res (List Nat)
  | .element _ attrs _ _ _ children =>
    Res.bind (own_vdom_id attrs) (fun ids =>
      Res.bind (descendant_ids_of_children children) (fun rest =>
        .ok (ids ++ rest)))
  | _ => .ok []

/-- The loop of `get_node_descendant_data_vdom_id` over `child_nodes()`,
recursing into `ELEMENT_NODE` children and skipping every other kind. -/
def descendant_ids_of_children : List DomNode → Res (List Nat)
  | [] => .ok []
  | c :: cs =>
    if c.isElement then
      Res.bind (get_node_descendant_data_vdom_id c) (fun ids =>
        Res.bind (descendant_ids_of_children cs) (fun rest =>
          .ok (ids ++ rest)))
    else descendant_ids_of_children cs

end

/-- The loop body of `remove_event_listeners` over the collected ids:
look the id up (`expect` — panics when absent), emit one `unregister` event
per `(event, closure)` pair, then remove the entry.  (The removal's own
`expect` cannot fire: the entry was found by the lookup just before.) -/
def remove_listeners_loop (ids : List Nat) (old_closures : ActiveClosure) :
    Res (ActiveClosure × List Ev) :=
  match ids with
  | [] => .ok (old_closures, [])
  | vdom_id :: rest =>
    match old_closures.get vdom_id with
    | none => .panicked "There is no marked with that vdom_id"
    | some old_closure =>
      let evs := old_closure.map (fun ec => Ev.unregister ec.1 ec.2)
      Res.bind (remove_listeners_loop rest (old_closures.remove vdom_id))
        (fun r => .ok (r.1, evs ++ r.2))

/-- `remove_event_listeners(node, old_closures)`: collect every descendant
`vdom_id` of `node` (itself included), and for each one unregister its
callbacks from the host tree and drop its registry entry.  Returns the
updated registry and the trace of host-tree unregistrations. -/
def remove_event_listeners (node : DomNode) (old_closures : ActiveClosure) :
    Res (ActiveClosure × List Ev) :=
  Res.bind (get_node_descendant_data_vdom_id node)
    (fun ids => remove_listeners_loop ids old_closures)

/-- Modelled from the spec: the scalar payload of a `Simple` attribute value
(the `Value` type lives in the external `mt_dom`/`sauron-vdom` crate, absent
from `src/`).  It supports `to_string` and `as_bool` as used by
`apply_patches.rs`. -/
inductive SimpleVal where
  | str (s : String)
  | bool (b : Bool)
  | num (n : Int)
  deriving Repr, DecidableEq

/-- `Value::to_string`. -/
def SimpleVal.to_string : SimpleVal → String
  | .str s => s
  | .bool b => if b then "true" else "false"
  | .num n => toString n

/-- `Value::as_bool`: `Some` only for boolean scalars. -/
def SimpleVal.as_bool : SimpleVal → Option Bool
  | .bool b => some b
  | _ => none

/-- Modelled from the spec: `AttributeValue` is the tagged union
`Simple(scalar) | Style(declarations) | EventCallback(handler) |
FunctionCall(string)` (declared in the external crate, absent from
`src/`). -/
inductive AttributeValue where
  | Simple (v : SimpleVal)
  | Style (decls : List String)
  | EventCallback (handle : Nat)
  | FunctionCall (s : String)
  deriving Repr, DecidableEq

/-- `AttributeValue::get_simple`. -/
def AttributeValue.get_simple : AttributeValue → Option SimpleVal
  | .Simple v => some v
  | _ => none

/-- `AttributeValue::get_function_call_value`. -/
def AttributeValue.get_function_call_value : AttributeValue → Option String
  | .FunctionCall s => some s
  | _ => none

/-- Modelled from the spec: a declarative (virtual) node handed to the
Dispatcher collaborator to be turned into a live subtree; its internal
structure is irrelevant to patching, which treats it opaquely. -/
inductive VNode where
  | element (tag : String) (attrs : List (String × AttributeValue))
      (children : List VNode)
  | text (s : String)
  deriving Repr

/-- A virtual attribute of a patch: `(name, value)`. -/
abbrev VAttr := String × AttributeValue

/-- Modelled from the spec: the `Patch` enum produced by the external diff
collaborator, each variant carrying the pre-order `node_idx` of its target
(declared in the external crate; `apply_patches.rs` matches exactly these
variants with these payloads). -/
inductive Patch where
  | AddAttributes (tag : String) (node_idx : Nat) (attributes : List VAttr)
  | RemoveAttributes (tag : String) (node_idx : Nat) (attributes : List String)
  | Replace (tag : String) (node_idx : Nat) (new_node : VNode)
  | TruncateChildren (tag : String) (node_idx : Nat)
      (num_children_remaining : Nat)
  | AppendChildren (tag : String) (node_idx : Nat) (new_nodes : List VNode)
  | ChangeText (node_idx : Nat) (new_text : String)
  deriving Repr

/-- `Patch::node_idx()`. -/
def Patch.node_idx : Patch → Nat
  | .AddAttributes _ i _ => i
  | .RemoveAttributes _ i _ => i
  | .Replace _ i _ => i
  | .TruncateChildren _ i _ => i
  | .AppendChildren _ i _ => i
  | .ChangeText i _ => i

/-- `CreatedNode<Node>`: a freshly built live subtree together with the
closures created for it. -/
structure CreatedNode where
  node : DomNode
  closures : ActiveClosure
  deriving Repr

/-- Modelled from the spec: the Dispatcher collaborator's
`create_live_subtree` capability (`CreatedNode::create_dom_node_opt` lives
in `created_node.rs`, absent from `src/`).  The apply functions are
parameterised over it. -/
abbrev CreateFn := VNode → CreatedNode

/-- `Element::set_attribute`: replace the first binding of the name or
append a fresh one. -/
def upsertAttr : List (String × String) → String → String →
    List (String × String)
  | [], n, v => [(n, v)]
  | (k, w) :: rest, n, v =>
    if k = n then (k, v) :: rest else (k, w) :: upsertAttr rest n v

namespace DomNode

/-- `set_attribute` on an element (host success assumed). -/
def set_attribute (n : DomNode) (name v : String) : DomNode :=
  match n with
  | .element tag attrs value checked innerHtml cs =>
    .element tag (upsertAttr attrs name v) value checked innerHtml cs
  | other => other

/-- `remove_attribute` on an element. -/
def remove_attribute (n : DomNode) (name : String) : DomNode :=
  match n with
  | .element tag attrs value checked innerHtml cs =>
    .element tag (attrs.filter (fun kv => kv.1 ≠ name)) value checked
      innerHtml cs
  | other => other

/-- `HtmlInputElement::set_value` / `HtmlTextAreaElement::set_value`. -/
def set_value (n : DomNode) (v : String) : DomNode :=
  match n with
  | .element tag attrs _ checked innerHtml cs =>
    .element tag attrs v checked innerHtml cs
  | other => other

/-- `HtmlInputElement::set_checked`. -/
def set_checked (n : DomNode) (b : Bool) : DomNode :=
  match n with
  | .element tag attrs value _ innerHtml cs =>
    .element tag attrs value b innerHtml cs
  | other => other

/-- `Element::set_inner_html`. -/
def set_inner_html (n : DomNode) (s : String) : DomNode :=
  match n with
  | .element tag attrs value checked _ cs =>
    .element tag attrs value checked s cs
  | other => other

/-- Replace the element's child list (models the cumulative effect of the
`remove_child` calls of `TruncateChildren` / `append_child` calls of
`AppendChildren` on the target element). -/
def with_children (n : DomNode) (cs : List DomNode) : DomNode :=
  match n with
  | .element tag attrs value checked innerHtml _ =>
    .element tag attrs value checked innerHtml cs
  | other => other

end DomNode

/-- One iteration body of the `AddAttributes` loop (lines 244–307 of
`apply_patches.rs`): empty names are skipped; `value`, `checked` and
`inner_html` go through dedicated setters; everything else goes through
`set_attribute`. -/
def apply_one_attribute (node : DomNode) (attr : VAttr) :
    DomNode × List Ev :=
  if attr.1.isEmpty then (node, [])
  else
    match attr.1 with
    | "value" =>
      let string_value :=
        match attr.2 with
        | .Simple v => v.to_string
        | _ => ""
      if node.isInput then
        (node.set_value string_value, [.setValue string_value])
      else if node.isTextArea then
        (node.set_value string_value, [.setValue string_value])
      else (node, [])
    | "checked" =>
      if node.isInput then
        let checked :=
          ((attr.2.get_simple.map SimpleVal.as_bool).join).getD false
        (node.set_checked checked, [.setChecked checked])
      else (node, [])
    | "inner_html" =>
      -- `node.dyn_ref::<Element>()` always succeeds: `node` is an `Element`.
      let s := (attr.2.get_function_call_value.map id).getD ""
      (node.set_inner_html s, [.setInnerHtml s])
    | other =>
      let s := (attr.2.get_simple.map SimpleVal.to_string).getD ""
      (node.set_attribute other s, [.setAttribute other s])

/-- The full `AddAttributes` loop over the patch's attribute list. -/
def apply_add_attributes (node : DomNode) : List VAttr → DomNode × List Ev
  | [] => (node, [])
  | a :: rest =>
    let r := apply_one_attribute node a
    let r2 := apply_add_attributes r.1 rest
    (r2.1, r.2 ++ r2.2)

/-- The `RemoveAttributes` loop: remove each named attribute generically. -/
def apply_remove_attributes (node : DomNode) :
    List String → DomNode × List Ev
  | [] => (node, [])
  | name :: rest =>
    let r := apply_remove_attributes (node.remove_attribute name) rest
    (r.1, [.removeAttribute name] ++ r.2)

/-- The `TruncateChildren` removal loop (`for _index in 0..to_be_remove_len`).
Each iteration takes the element's current last child (`expect` — panics
when there is none), retires it via `remove_event_listeners`, and removes it
from the child list — unless it is a comment node, which is retired but then
skipped (`continue`) and therefore stays the last child. -/
def truncate_loop (fuel : Nat) (children : List DomNode)
    (old_closures : ActiveClosure) :
    Res (List DomNode × ActiveClosure × List Ev) :=
  match fuel with
  | 0 => .ok (children, old_closures, [])
  | n + 1 =>
    match children.getLast? with
    | none => .panicked "No more last child"
    | some last_child =>
      Res.bind (remove_event_listeners last_child old_closures)
        (fun r1 =>
          if last_child.isComment then
            Res.bind (truncate_loop n children r1.1)
              (fun r => .ok (r.1, r.2.1, r1.2 ++ r.2.2))
          else
            Res.bind (truncate_loop n children.dropLast r1.1)
              (fun r => .ok (r.1, r.2.1, r1.2 ++ [Ev.removeChild] ++ r.2.2)))

/-- The `AppendChildren` loop: build each new subtree via the Dispatcher,
append it, and union the produced closures. -/
def append_children_loop (create : CreateFn) :
    List VNode → ActiveClosure × List DomNode × List Ev
  | [] => ([], [], [])
  | vn :: rest =>
    let created := create vn
    let r := append_children_loop create rest
    (created.closures.extend r.1, created.node :: r.2.1,
      [Ev.build, Ev.appendChild] ++ r.2.2)

/-- Result of applying one patch to its located target node. -/
structure PatchResult where
  /-- the target's place in the host tree after the patch (the replacement
  node for `Replace`). -/
  node : DomNode
  /-- `old_closures` after the mutations performed by the patch. -/
  registry : ActiveClosure
  /-- the `ActiveClosure` returned by the function (closures newly created
  during this patch). -/
  closures : ActiveClosure
  /-- host-tree operations, in order. -/
  trace : List Ev
  deriving Repr

/-- `apply_element_patch`: apply one patch to a located element node,
mirroring the `match patch` of lines 242–382 of `apply_patches.rs`. -/
def apply_element_patch (create : CreateFn) (node : DomNode)
    (old_closures : ActiveClosure) (patch : Patch) : Res PatchResult :=
  match patch with
  | .AddAttributes _tag _node_idx attributes =>
    let r := apply_add_attributes node attributes
    .ok ⟨r.1, old_closures, [], r.2⟩
  | .RemoveAttributes _tag _node_idx attributes =>
    let r := apply_remove_attributes node attributes
    .ok ⟨r.1, old_closures, [], r.2⟩
  | .Replace _tag _node_idx new_node =>
    let created_node := create new_node
    Res.bind (remove_event_listeners node old_closures)
      (fun r =>
        .ok ⟨created_node.node, r.1, created_node.closures,
          [Ev.build] ++ r.2 ++ [Ev.replaceWith]⟩)
  | .TruncateChildren _tag _node_idx num_children_remaining =>
    let child_count := node.child_nodes.length
    -- `child_count as usize - num_children_remaining`: unsigned
    -- subtraction, which panics on underflow (Rust overflow check).
    if child_count < num_children_remaining then
      .panicked "attempt to subtract with overflow"
    else
      let to_be_remove_len := child_count - num_children_remaining
      Res.bind (truncate_loop to_be_remove_len node.child_nodes old_closures)
        (fun r => .ok ⟨node.with_children r.1, r.2.1, [], r.2.2⟩)
  | .AppendChildren _tag _node_idx new_nodes =>
    let r := append_children_loop create new_nodes
    .ok ⟨node.with_children (node.child_nodes ++ r.2.1), old_closures,
      r.1, r.2.2⟩
  | .ChangeText _node_idx _new_node =>
    .panicked "Elements should not receive ChangeText patches."

/-- `apply_text_patch`: apply one patch to a located text node, mirroring
lines 394–410 of `apply_patches.rs`.  Note the function returns no
closures (`Result<(), JsValue>`) and takes no registry. -/
def apply_text_patch (create : CreateFn) (node : DomNode) (patch : Patch) :
    Res (DomNode × List Ev) :=
  match patch with
  | .ChangeText _node_idx new_text =>
    .ok (.text new_text, [Ev.setNodeValue new_text])
  | .Replace _tag _node_idx new_node =>
    let created_node := create new_node
    .ok (created_node.node, [Ev.build, Ev.replaceWith])
  | _other =>
    .panicked "Text nodes should only receive ChangeText or Replace patches."

/-- node-index → located-node mapping (`HashMap<usize, Element>` /
`HashMap<usize, Text>`), as an association list with unique keys. -/
abbrev NodeMap := List (Nat × DomNode)

/-- The root-matching step of `find_nodes_recursive` (lines 116–128): when
the running counter is in the wanted set, record the root by node kind; any
other node kind — comment included — hits `unimplemented!`. -/
def record_root (root_node : DomNode) (cur_node_idx : Nat)
    (nodes_to_find : List Nat) : Res (NodeMap × NodeMap) :=
  if nodes_to_find.contains cur_node_idx then
    match root_node with
    | .element _ _ _ _ _ _ => .ok ([(cur_node_idx, root_node)], [])
    | .text _ => .ok ([], [(cur_node_idx, root_node)])
    | _ => .panicked "Unsupported root node type"
  else .ok ([], [])

mutual

/-- `find_nodes_recursive(root_node, cur_node_idx, nodes_to_find)`: if the
running counter is wanted, record the root by node kind (`record_root`);
increment the counter; then walk `child_nodes()` (empty for text and
comment roots, for which the loop is skipped outright).  Returns the two
maps and the counter value after the subtree. -/
def find_nodes_recursive (root_node : DomNode) (cur_node_idx : Nat)
    (nodes_to_find : List Nat) : Res (NodeMap × NodeMap × Nat) :=
  match root_node with
  | .element tag attrs value checked innerHtml children =>
    Res.bind
      (record_root (.element tag attrs value checked innerHtml children)
        cur_node_idx nodes_to_find)
      (fun root_maps =>
        Res.bind
          (find_nodes_in_children children (cur_node_idx + 1) nodes_to_find)
          (fun r => .ok (root_maps.1 ++ r.1, root_maps.2 ++ r.2.1, r.2.2)))
  | .unsupported k children =>
    Res.bind (record_root (.unsupported k children) cur_node_idx nodes_to_find)
      (fun root_maps =>
        Res.bind
          (find_nodes_in_children children (cur_node_idx + 1) nodes_to_find)
          (fun r => .ok (root_maps.1 ++ r.1, root_maps.2 ++ r.2.1, r.2.2)))
  | other =>
    -- text/comment roots: `child_nodes()` is empty, the loop contributes
    -- nothing and leaves the counter at `cur_node_idx + 1`.
    Res.bind (record_root other cur_node_idx nodes_to_find)
      (fun root_maps =>
        .ok (root_maps.1, root_maps.2, cur_node_idx + 1))

/-- The `for i in 0..child_node_count` loop of `find_nodes_recursive`:
element children are recursed into; text children are recorded inline when
wanted and increment the counter; comment children and children of
unsupported kind are skipped without touching the counter. -/
def find_nodes_in_children (children : List DomNode) (cur_node_idx : Nat)
    (nodes_to_find : List Nat) : Res (NodeMap × NodeMap × Nat) :=
  match children with
  | [] => .ok ([], [], cur_node_idx)
  | child_node :: rest =>
    match child_node with
    | .element _ _ _ _ _ _ =>
      Res.bind (find_nodes_recursive child_node cur_node_idx nodes_to_find)
        (fun r =>
          Res.bind (find_nodes_in_children rest r.2.2 nodes_to_find)
            (fun r2 => .ok (r.1 ++ r2.1, r.2.1 ++ r2.2.1, r2.2.2)))
    | .text _ =>
      let tm : NodeMap :=
        if nodes_to_find.contains cur_node_idx then [(cur_node_idx, child_node)]
        else []
      Res.bind (find_nodes_in_children rest (cur_node_idx + 1) nodes_to_find)
        (fun r2 => .ok (r2.1, tm ++ r2.2.1, r2.2.2))
    | .comment _ => find_nodes_in_children rest cur_node_idx nodes_to_find
    | .unsupported _ _ => find_nodes_in_children rest cur_node_idx nodes_to_find

end

/-- `find_nodes(root_node, patches)`: collect the wanted indices from the
patch list, then run one traversal from counter 0. -/
def find_nodes (root_node : DomNode) (patches : List Patch) :
    Res (NodeMap × NodeMap × Nat) :=
  let nodes_to_find := patches.map Patch.node_idx
  find_nodes_recursive root_node 0 nodes_to_find

/-- The `for patch in patches` loop of `patch`: look the patch's index up in
the element map first, then in the text map, and fail through
`unreachable!` when neither has it.  Element patches thread the registry
and extend the accumulated `active_closures`; text patches contribute
nothing to it.  (The maps hold the located nodes; this model applies each
patch to the located snapshot — adequate for the control-flow and closure
bookkeeping this loop is responsible for, while per-node tree mutation is
captured by `apply_element_patch` / `apply_text_patch` themselves.) -/
def patch_loop (create : CreateFn) (emap tmap : NodeMap) :
    List Patch → ActiveClosure → ActiveClosure → Res ActiveClosure
  | [], _old_closures, active_closures => .ok active_closures
  | p :: rest, old_closures, active_closures =>
    match emap.lookup p.node_idx with
    | some element =>
      Res.bind (apply_element_patch create element old_closures p)
        (fun r =>
          patch_loop create emap tmap rest r.registry
            (active_closures.extend r.closures))
    | none =>
      match tmap.lookup p.node_idx with
      | some text_node =>
        Res.bind (apply_text_patch create text_node p)
          (fun _ => patch_loop create emap tmap rest old_closures
            active_closures)
      | none =>
        .panicked "Getting here means we didn't find the element or next node that we were supposed to patch."

/-- `patch(program, root_node, old_closures, patches)`: locate all targets
up front with `find_nodes`, then apply the patches in order, returning the
closures created during this call. -/
def patch (create : CreateFn) (root_node : DomNode)
    (old_closures : ActiveClosure) (patches : List Patch) :
    Res ActiveClosure :=
  Res.bind (find_nodes root_node patches)
    (fun maps => patch_loop create maps.1 maps.2.1 patches old_closures [])

/-! ## Renderer (`crates/sauron-core/src/render.rs`) -/

/-- `mt_dom::AttValue`: a plain attribute value or an event listener. -/
inductive AttValue where
  | Plain (v : AttributeValue)
  | Event (handle : Nat)
  deriving Repr, DecidableEq

/-- `AttributeValue::is_style`. -/
def AttributeValue.is_style : AttributeValue → Bool
  | .Style _ => true
  | _ => false

/-- A sauron `Attribute<MSG>`: a name and a list of `AttValue`s. -/
structure RAttr where
  name : String
  value : List AttValue
  deriving Repr, DecidableEq

/-- The declarative `Node<MSG>` tree the Renderer walks. -/
inductive RNode where
  | element (tag : String) (attrs : List RAttr) (children : List RNode)
  | text (s : String)
  deriving Repr

/-- `Node::is_text`. -/
def RNode.is_text : RNode → Bool
  | .text _ => true
  | _ => false

/-- four-space indentation: `"    ".repeat(n)`. -/
def indentStr (n : Nat) : String :=
  String.join (List.replicate n "    ")

/-- `Render for AttributeValue`: simple values print their scalar, styles
print each declaration followed by `;`, everything else prints nothing. -/
def renderAttributeValue : AttributeValue → String
  | .Simple simple => simple.to_string
  | .Style styles_att => String.join (styles_att.map (fun s => s ++ ";"))
  | _ => ""

/-- The `for (i, att_value) in self.value().iter().enumerate()` loop of
`Render for Attribute`: plain values are separated by a space (except
before the first entry and before styles); non-plain values print
nothing but still advance the index. -/
def renderAttValues : List AttValue → Nat → String
  | [], _ => ""
  | v :: rest, i =>
    match v with
    | .Plain plain =>
      (if i > 0 && !plain.is_style then " " else "")
        ++ renderAttributeValue plain ++ renderAttValues rest (i + 1)
    | _ => renderAttValues rest (i + 1)

/-- `Render for Attribute`: `name="…values…"`. -/
def renderRAttr (a : RAttr) : String :=
  a.name ++ "=\"" ++ renderAttValues a.value 0 ++ "\""

mutual

/-- `Render::render_with_indent` for `Node<MSG>` / `Element<MSG>` (the
`with-measure` feature is disabled, so the `node_idx` counter is threaded
but never printed).  `merge` stands for the external
`mt_dom::merge_attributes_of_same_name`, over which the development is
parameterised.  Returns the rendered string and the final `node_idx`. -/
def render_with_indent (merge : List RAttr → List RAttr) (node : RNode)
    (indent : Nat) (node_idx : Option Nat) : String × Option Nat :=
  match node with
  | .text s => (s, node_idx)
  | .element tag attrs children =>
    let opening := "<" ++ tag
      ++ String.join ((merge attrs).map (fun a => " " ++ renderRAttr a))
      ++ ">"
    let first_child := children.get? 0
    let is_first_child_text_node :=
      (first_child.map RNode.is_text).getD false
    let is_lone_child_text_node :=
      children.length == 1 && is_first_child_text_node
    let body :=
      if is_lone_child_text_node then
        render_lone_child merge children indent node_idx
      else
        render_children merge children indent node_idx
    let closing_gap :=
      if !is_lone_child_text_node && !children.isEmpty then
        "\n" ++ indentStr indent
      else ""
    (opening ++ body.1 ++ closing_gap ++ "</" ++ tag ++ ">", body.2)

/-- The inline branch: `first_child.unwrap()` is rendered at the same
indent after bumping the `node_idx` counter (the child list is known to be
a singleton here). -/
def render_lone_child (merge : List RAttr → List RAttr)
    (children : List RNode) (indent : Nat) (node_idx : Option Nat) :
    String × Option Nat :=
  match children with
  | fc :: _ => render_with_indent merge fc indent (node_idx.map (· + 1))
  | [] => ("", node_idx)

/-- The non-inline branch: every child on its own line, indented one level
deeper, with the `node_idx` counter incremented before each child. -/
def render_children (merge : List RAttr → List RAttr)
    (children : List RNode) (indent : Nat) (node_idx : Option Nat) :
    String × Option Nat :=
  match children with
  | [] => ("", node_idx)
  | child :: rest =>
    let r := render_with_indent merge child (indent + 1)
      (node_idx.map (· + 1))
    let r2 := render_children merge rest indent r.2
    ("\n" ++ indentStr (indent + 1) ++ r.1 ++ r2.1, r2.2)

end

/-- `Render::render`: render into an empty buffer at indent 0 with
`node_idx = Some(0)`. -/
def render (merge : List RAttr → List RAttr) (node : RNode) : String :=
  (render_with_indent merge node 0 (some 0)).1

/-! ## Task model (`crates/sauron-core/src/dom/task.rs`)

The async runtime is modelled by its observable value semantics: a
`SingleTask`'s future is identified with the one message it eventually
resolves to, and a `RecurringTask`'s unbounded receiver with the sequence
of messages the source side will deliver over its lifetime. -/

/-- `SingleTask<MSG>`: an asynchronous computation resolving to one MSG. -/
structure SingleTask (MSG : Type) where
  task : MSG
  deriving Repr, DecidableEq

/-- `RecurringTask<MSG>`: the receiving end of an unbounded channel; the
field holds the messages the sender will deliver, in order. -/
structure RecurringTask (MSG : Type) where
  receiver : List MSG
  deriving Repr, DecidableEq

/-- `Task<MSG>`: either a single or a recurring task. -/
inductive Task (MSG : Type) where
  | Single : SingleTask MSG → Task MSG
  | Recurring : RecurringTask MSG → Task MSG
  deriving Repr, DecidableEq

/-- `SingleTask::map_msg`: await the wrapped future, then apply `f`. -/
def SingleTask.map_msg {MSG MSG2 : Type} (t : SingleTask MSG)
    (f : MSG → MSG2) : SingleTask MSG2 :=
  ⟨f t.task⟩

/-- `SingleTask::next`: await the future and yield its message. -/
def SingleTask.next {MSG : Type} (t : SingleTask MSG) : Option MSG :=
  some t.task

/-- `RecurringTask::map_msg`: the spawned forwarding loop pulls each
message from `self` in order, applies `f`, and `start_send`s it into the
fresh channel, whose receiving end is returned. -/
def RecurringTask.map_msg {MSG MSG2 : Type} (t : RecurringTask MSG)
    (f : MSG → MSG2) : RecurringTask MSG2 :=
  ⟨t.receiver.map f⟩

/-- `RecurringTask::next`: pull the next message from the channel. -/
def RecurringTask.next {MSG : Type} (t : RecurringTask MSG) : Option MSG :=
  t.receiver.head?

/-- `Task::map_msg`: dispatch on the variant. -/
def Task.map_msg {MSG MSG2 : Type} (t : Task MSG) (f : MSG → MSG2) :
    Task MSG2 :=
  match t with
  | .Single task => .Single (task.map_msg f)
  | .Recurring task => .Recurring (task.map_msg f)

/-- `Task::next`: dispatch on the variant. -/
def Task.next {MSG : Type} (t : Task MSG) : Option MSG :=
  match t with
  | .Single task => task.next
  | .Recurring task => task.next

/-- Is this a `Single` task? -/
def Task.isSingle {MSG : Type} : Task MSG → Bool
  | .Single _ => true
  | .Recurring _ => false

/-- All outcomes a task yields over its lifetime. -/
def Task.outcomes {MSG : Type} : Task MSG → List MSG
  | .Single t => [t.task]
  | .Recurring t => t.receiver

/-! ## Specification-side definitions used to state the theorems -/

/-- Is this event a host-tree listener unregistration (retire activity)? -/
def Ev.isUnregister : Ev → Bool
  | .unregister _ _ => true
  | _ => false

/-- The registry after dropping the entries of all the given ids. -/
def registry_minus (reg : ActiveClosure) (ids : List Nat) : ActiveClosure :=
  reg.filter (fun kv => !(ids.contains kv.1))

/-- The host unregistrations that retiring the given ids against `reg`
performs: for each id in order, one `unregister` per registered pair. -/
def unregs_of (reg : ActiveClosure) (ids : List Nat) : List Ev :=
  (ids.map (fun id =>
    ((reg.get id).getD []).map (fun ec => Ev.unregister ec.1 ec.2))).flatten

/-- Specification of the truncation loop on a comment-free suffix, written
from the spec's words: retire each child (last first), and only then remove
it from the host tree. -/
def retire_fold : List DomNode → ActiveClosure → Res (ActiveClosure × List Ev)
  | [], reg => .ok (reg, [])
  | c :: cs, reg =>
    Res.bind (remove_event_listeners c reg) (fun r =>
      Res.bind (retire_fold cs r.1) (fun r2 =>
        .ok (r2.1, r.2 ++ [Ev.removeChild] ++ r2.2)))

mutual

/-- A live tree accepted by the Node Locator without warnings: no node of
unsupported kind anywhere. -/
def goodNode : DomNode → Bool
  | .element _ _ _ _ _ cs => goodList cs
  | .text _ => true
  | .comment _ => true
  | .unsupported _ _ => false

/-- `goodNode` on every member. -/
def goodList : List DomNode → Bool
  | [] => true
  | c :: cs => goodNode c && goodList cs

end

mutual

/-- Specification of the node-index space, written from the spec's words:
a pre-order enumeration that gives every element and text node one index
(elements before their children), gives comment nodes none, and skips
nodes of unsupported kind.  Returns the `(index, node)` pairs of the
subtree and the next free index. -/
def enum_node (n : DomNode) (start : Nat) : List (Nat × DomNode) × Nat :=
  match n with
  | .element tag attrs value checked innerHtml cs =>
    let r := enum_list cs (start + 1)
    ((start, .element tag attrs value checked innerHtml cs) :: r.1, r.2)
  | .text s => ([(start, .text s)], start + 1)
  | .comment _ => ([], start)
  | .unsupported _ _ => ([], start)

/-- `enum_node` across a child list, threading the counter. -/
def enum_list (cs : List DomNode) (start : Nat) :
    List (Nat × DomNode) × Nat :=
  match cs with
  | [] => ([], start)
  | c :: rest =>
    let r := enum_node c start
    let r2 := enum_list rest r.2
    (r.1 ++ r2.1, r2.2)

end

/-- Does this patch hit the structural-inconsistency paths of `patch`:
a `ChangeText` patch whose index resolved to an element, any patch other
than `ChangeText`/`Replace` whose index resolved to a text node, or an
index neither map resolved? -/
def bad_patch (emap tmap : NodeMap) (p : Patch) : Bool :=
  match emap.lookup p.node_idx with
  | some _ =>
    match p with
    | .ChangeText _ _ => true
    | _ => false
  | none =>
    match tmap.lookup p.node_idx with
    | some _ =>
      match p with
      | .ChangeText _ _ => false
      | .Replace _ _ _ => false
      | _ => true
    | none => true

/-- The opening tag the Renderer prints: `<tag` followed by the merged
attributes, each preceded by one space, then `>`. -/
def openTag (merge : List RAttr → List RAttr) (tag : String)
    (attrs : List RAttr) : String :=
  "<" ++ tag ++ String.join ((merge attrs).map (fun a => " " ++ renderRAttr a))
    ++ ">"

/-! ### Concrete sample inputs used by counterexamples and witnesses -/

/-- A Dispatcher that returns a fixed text node owning one fresh closure. -/
def sampleCreate : CreateFn :=
  fun _ => ⟨.text "new", [(8, [("input", 100)])]⟩

/-- An element carrying `vdom_id` 7 and no children. -/
def elMark7 : DomNode :=
  .element "div" [(DATA_SAURON_VDOM_ID, "7")] "" false "" []

/-- A marker-free childless element. -/
def elPlain : DomNode := .element "div" [] "" false "" []

/-- A registry holding exactly the entry of `elMark7`. -/
def reg7 : ActiveClosure := [(7, [("click", 99)])]

/-! ## Theorems -/

theorem res_bind_ok {α β : Type} (a : α) (f : α → Res β) :
    Res.bind (.ok a) f = f a := rfl

/-- Congruence for `Res.bind` under pointwise equal continuations. -/
theorem res_bind_congr {α β : Type} (x : Res α) {f g : α → Res β}
    (h : ∀ a, f a = g a) : Res.bind x f = Res.bind x g := by
  cases x <;> simp [Res.bind, h]

/-! ### C9: `Task::map_msg` -/

/-- C9: `Task::map_msg` preserves a task's cardinality kind — mapping a
`Single` task yields a `Single` task and mapping a `Recurring` task yields
a `Recurring` task; a single task's `next` yields exactly one outcome, and
for a mapped single task that outcome is `f` applied to the original
outcome; the recurring forwarding loop applies `f` to each received value
and re-enqueues it, preserving value order. -/
theorem task_map_msg_preserves_kind {MSG MSG2 : Type} (f : MSG → MSG2) :
    (∀ t : Task MSG, (t.map_msg f).isSingle = t.isSingle)
    ∧ (∀ st : SingleTask MSG,
        (Task.Single st).map_msg f = Task.Single (st.map_msg f)
        ∧ (Task.Single st).outcomes.length = 1
        ∧ st.next = some st.task
        ∧ (st.map_msg f).next = some (f st.task))
    ∧ (∀ rt : RecurringTask MSG,
        (Task.Recurring rt).map_msg f = Task.Recurring (rt.map_msg f)
        ∧ (rt.map_msg f).receiver = rt.receiver.map f
        ∧ ((Task.Recurring rt).map_msg f).outcomes
            = (Task.Recurring rt).outcomes.map f) := by
  refine ⟨fun t => ?_, fun st => ⟨rfl, rfl, rfl, rfl⟩,
    fun rt => ⟨rfl, rfl, rfl⟩⟩
  cases t <;> rfl

/-! ### C10: `TruncateChildren` underflow -/

/-- C10: when `remaining_count` exceeds the target element's current child
count (comments included), the unsigned subtraction
`child_count - num_children_remaining` underflows and `TruncateChildren`
aborts instead of returning a result. -/
theorem truncate_underflow_panics (create : CreateFn) (node : DomNode)
    (reg : ActiveClosure) (tag : String) (idx remaining : Nat)
    (h : node.child_nodes.length < remaining) :
    apply_element_patch create node reg (.TruncateChildren tag idx remaining)
      = .panicked "attempt to subtract with overflow" := by
  unfold apply_element_patch
  simp [h]

/-- Witness for `truncate_underflow_panics` at a childless element and
`remaining_count = 1`. -/
theorem truncate_underflow_panics_witness :
    apply_element_patch sampleCreate elPlain [] (.TruncateChildren "div" 0 1)
      = .panicked "attempt to subtract with overflow" :=
  truncate_underflow_panics sampleCreate elPlain [] "div" 0 1 (by decide)

/-! ### C2: `remove_event_listeners` -/

theorem ac_get_remove_ne (reg : ActiveClosure) {a b : Nat} (h : a ≠ b) :
    (reg.remove a).get b = reg.get b := by
  induction reg with
  | nil => rfl
  | cons kv rest ih =>
    obtain ⟨k, v⟩ := kv
    by_cases hk : k = a
    · subst hk
      simp [ActiveClosure.remove, ActiveClosure.get, List.filter,
        List.lookup_cons, beq_false_of_ne (Ne.symm h)] at ih ⊢
      simpa [ActiveClosure.remove, ActiveClosure.get] using ih
    · by_cases hb : b = k
      · subst hb
        simp [ActiveClosure.remove, ActiveClosure.get, List.filter, hk,
          List.lookup_cons]
      · simp [ActiveClosure.remove, ActiveClosure.get, List.filter, hk,
          List.lookup_cons, beq_false_of_ne hb] at ih ⊢
        simpa [ActiveClosure.remove, ActiveClosure.get] using ih

theorem ac_get_remove_self (reg : ActiveClosure) (a : Nat) :
    (reg.remove a).get a = none := by
  induction reg with
  | nil => rfl
  | cons kv rest ih =>
    obtain ⟨k, v⟩ := kv
    by_cases hk : k = a
    · simpa [ActiveClosure.remove, List.filter, hk] using ih
    · simp [ActiveClosure.remove, ActiveClosure.get, List.filter, hk,
        List.lookup_cons, beq_false_of_ne (Ne.symm hk)] at ih ⊢
      simpa [ActiveClosure.remove, ActiveClosure.get] using ih

theorem registry_minus_cons (reg : ActiveClosure) (id : Nat)
    (rest : List Nat) :
    registry_minus reg (id :: rest)
      = registry_minus (reg.remove id) rest := by
  induction reg with
  | nil => rfl
  | cons kv r ih =>
    obtain ⟨k, v⟩ := kv
    by_cases hk : k = id
    · simp [registry_minus, ActiveClosure.remove, List.filter, hk,
        List.contains_cons] at ih ⊢
      simpa [registry_minus, ActiveClosure.remove] using ih
    · by_cases hc : k ∈ rest
      · simp [registry_minus, ActiveClosure.remove, List.filter, hk, hc,
          List.contains_cons] at ih ⊢
        simpa [registry_minus, ActiveClosure.remove] using ih
      · simp only [registry_minus, ActiveClosure.remove, List.filter,
          List.contains_cons] at ih ⊢
        simp [beq_false_of_ne hk, hk, hc, List.filter] at ih ⊢
        exact ih

theorem unregs_of_remove_ne (reg : ActiveClosure) (id : Nat)
    (rest : List Nat) (h : ¬ id ∈ rest) :
    unregs_of (reg.remove id) rest = unregs_of reg rest := by
  induction rest with
  | nil => rfl
  | cons i r ih =>
    have hne : id ≠ i := fun he => h (he ▸ List.mem_cons_self i r)
    have hr : ¬ id ∈ r := fun hm => h (List.mem_cons_of_mem i hm)
    simp [unregs_of] at ih ⊢
    rw [ac_get_remove_ne reg hne]
    rw [ih hr]

/-- Success case of the retire loop: with pairwise distinct ids all present
in the registry, the loop succeeds, unregisters exactly the recorded pairs
in id order, and drops exactly those entries. -/
theorem remove_listeners_loop_ok (ids : List Nat) :
    ∀ reg : ActiveClosure, ids.Nodup →
    (∀ id ∈ ids, (reg.get id).isSome = true) →
    remove_listeners_loop ids reg
      = .ok (registry_minus reg ids, unregs_of reg ids) := by
  induction ids with
  | nil =>
    intro reg _ _
    simp [remove_listeners_loop, registry_minus, unregs_of]
  | cons id rest ih =>
    intro reg hnd hall
    obtain ⟨cbs, hcbs⟩ :=
      Option.isSome_iff_exists.mp (hall id (List.mem_cons_self id rest))
    have hnotmem : ¬ id ∈ rest := (List.nodup_cons.mp hnd).1
    have hrest :
        remove_listeners_loop rest (reg.remove id)
          = .ok (registry_minus (reg.remove id) rest,
              unregs_of (reg.remove id) rest) := by
      refine ih (reg.remove id) (List.nodup_cons.mp hnd).2 ?_
      intro i hi
      have hne : id ≠ i := fun he => hnotmem (he ▸ hi)
      rw [ac_get_remove_ne reg hne]
      exact hall i (List.mem_cons_of_mem id hi)
    simp [remove_listeners_loop, hcbs, hrest, Res.bind]
    constructor
    · rw [registry_minus_cons]
    · rw [unregs_of_remove_ne reg id rest hnotmem]
      simp [unregs_of, hcbs]

/-- Failure case of the retire loop: an id with no registry entry makes the
loop panic through `expect`. -/
theorem remove_listeners_loop_absent (ids : List Nat) :
    ∀ reg : ActiveClosure, (∃ id ∈ ids, reg.get id = none) →
    remove_listeners_loop ids reg
      = .panicked "There is no marked with that vdom_id" := by
  induction ids with
  | nil =>
    intro reg h
    obtain ⟨_, hm, _⟩ := h
    exact absurd hm (List.not_mem_nil _)
  | cons id rest ih =>
    intro reg h
    obtain ⟨i, hi, hget⟩ := h
    cases hc : reg.get id with
    | none => simp [remove_listeners_loop, hc]
    | some cbs =>
      have hir : i ∈ rest := by
        rcases List.mem_cons.mp hi with he | hr
        · exact absurd hget (by rw [he, hc]; simp)
        · exact hr
      have hmiss : (reg.remove id).get i = none := by
        by_cases hii : id = i
        · rw [hii]; exact ac_get_remove_self reg i
        · rw [ac_get_remove_ne reg hii]; exact hget
      have := ih (reg.remove id) ⟨i, hir, hmiss⟩
      simp [remove_listeners_loop, hc, this, Res.bind]

/-- C2 (amended): `remove_event_listeners` — for every id yielded by the
descendant-id collection, the registry entry is looked up and, when the
entry is absent, the function panics (aborts the program through `expect`)
rather than returning an error value; otherwise it unregisters each
recorded `(event_name, handle)` pair from the host tree and removes the
id's entry from the registry (a removal that can no longer find the entry
absent, since the lookup just before it succeeded). -/
theorem remove_event_listeners_spec (node : DomNode) (reg : ActiveClosure)
    (ids : List Nat)
    (hids : get_node_descendant_data_vdom_id node = .ok ids) :
    (ids.Nodup → (∀ id ∈ ids, (reg.get id).isSome = true) →
      remove_event_listeners node reg
        = .ok (registry_minus reg ids, unregs_of reg ids))
    ∧ ((∃ id ∈ ids, reg.get id = none) →
      remove_event_listeners node reg
        = .panicked "There is no marked with that vdom_id") := by
  constructor
  · intro hnd hall
    simp [remove_event_listeners, hids, Res.bind]
    exact remove_listeners_loop_ok ids reg hnd hall
  · intro habs
    simp [remove_event_listeners, hids, Res.bind]
    exact remove_listeners_loop_absent ids reg habs

/-- Evaluation of the descendant-id collection on the sample element
`elMark7` (the collection is compiled by well-founded recursion, so its
value is exposed through its equations rather than by `rfl`). -/
theorem gnddvi_elMark7 : get_node_descendant_data_vdom_id elMark7 = .ok [7] := by
  simp [get_node_descendant_data_vdom_id, descendant_ids_of_children, elMark7]
  rfl

/-- Witness for `remove_event_listeners_spec`: retiring `elMark7` against
a registry holding its entry succeeds and unregisters its one listener;
retiring it against the empty registry panics. -/
theorem remove_event_listeners_spec_witness :
    remove_event_listeners elMark7 reg7
      = .ok ([], [Ev.unregister "click" 99])
    ∧ remove_event_listeners elMark7 []
      = .panicked "There is no marked with that vdom_id" := by
  constructor
  · have h := (remove_event_listeners_spec elMark7 reg7 [7] gnddvi_elMark7).1
      (by decide) (by decide)
    rw [h]
    rfl
  · exact (remove_event_listeners_spec elMark7 [] [7] gnddvi_elMark7).2
      ⟨7, by decide, by rfl⟩

/-- C2 counterexample: retiring an element whose `vdom_id` has no registry
entry does not produce an error value propagated to the caller — the
function aborts with a panic instead. -/
theorem remove_event_listeners_counterexample :
    remove_event_listeners elMark7 []
      = .panicked "There is no marked with that vdom_id"
    ∧ (remove_event_listeners elMark7 []).isJsErr = false
    ∧ (remove_event_listeners elMark7 []).isOk = false := by
  have h : remove_event_listeners elMark7 []
      = .panicked "There is no marked with that vdom_id" := by
    simp [remove_event_listeners, gnddvi_elMark7, Res.bind,
      remove_listeners_loop, ActiveClosure.get]
  exact ⟨h, by rw [h]; rfl, by rw [h]; rfl⟩

/-! ### C1: `Replace` patches -/

theorem res_bind_assoc {α β γ : Type} (x : Res α) (f : α → Res β)
    (g : β → Res γ) :
    Res.bind (Res.bind x f) g = Res.bind x (fun a => Res.bind (f a) g) := by
  cases x <;> rfl

/-- Evaluation of the retire of `elMark7` against its registry. -/
theorem rel_elMark7_reg7 :
    remove_event_listeners elMark7 reg7
      = .ok ([], [Ev.unregister "click" 99]) := by
  simp [remove_event_listeners, gnddvi_elMark7, Res.bind,
    remove_listeners_loop, ActiveClosure.get, reg7]
  rfl

/-- C1 (amended): an element-target `Replace` first builds the new live
subtree via the Dispatcher, then retires the outgoing element, then
replaces it in the host tree, and the new subtree's closures are the
patch's contribution to the returned set; a text-target `Replace` builds
the new subtree and replaces the node without any retire, and contributes
no closures to the result of `patch`. -/
theorem replace_patch_spec (create : CreateFn) (el tn : DomNode)
    (reg reg' : ActiveClosure) (evs : List Ev) (tag : String) (idx : Nat)
    (vn : VNode)
    (hretire : remove_event_listeners el reg = .ok (reg', evs)) :
    apply_element_patch create el reg (.Replace tag idx vn)
      = .ok ⟨(create vn).node, reg', (create vn).closures,
          [Ev.build] ++ evs ++ [Ev.replaceWith]⟩
    ∧ apply_text_patch create tn (.Replace tag idx vn)
      = .ok ((create vn).node, [Ev.build, Ev.replaceWith])
    ∧ (∀ (s : String) (vn2 : VNode),
        patch create (.text s) reg [.Replace tag 0 vn2] = .ok []) := by
  refine ⟨?_, rfl, ?_⟩
  · simp [apply_element_patch, hretire, Res.bind]
  · intro s vn2
    simp [patch, find_nodes, find_nodes_recursive, record_root, Patch.node_idx,
      Res.bind, patch_loop, apply_text_patch, List.lookup]

/-- Witness for `replace_patch_spec` at `elMark7`/`reg7` with the sample
Dispatcher. -/
theorem replace_patch_spec_witness :
    apply_element_patch sampleCreate elMark7 reg7 (.Replace "div" 0 (.text "n"))
      = .ok ⟨.text "new", [], [(8, [("input", 100)])],
          [Ev.build, Ev.unregister "click" 99, Ev.replaceWith]⟩
    ∧ patch sampleCreate (.text "old") reg7 [.Replace "div" 0 (.text "n")]
      = .ok [] := by
  have h := replace_patch_spec sampleCreate elMark7 (.text "old") reg7 []
    [Ev.unregister "click" 99] "div" 0 (.text "n") rel_elMark7_reg7
  exact ⟨h.1, h.2.2 "old" (.text "n")⟩

/-- C1 counterexample: on a concrete element-target `Replace`, the first
host operation is the build of the new subtree — no retire activity
(listener unregistration) happens before it, so retire is not called
first; and a text-target `Replace` routed through `patch` contributes no
closures even though the Dispatcher created some. -/
theorem replace_patch_counterexample :
    apply_element_patch sampleCreate elMark7 reg7 (.Replace "div" 0 (.text "n"))
      = .ok ⟨.text "new", [], [(8, [("input", 100)])],
          [Ev.build, Ev.unregister "click" 99, Ev.replaceWith]⟩
    ∧ (([Ev.build, Ev.unregister "click" 99, Ev.replaceWith].takeWhile
        (fun e => e != Ev.build)).any Ev.isUnregister) = false
    ∧ patch sampleCreate (.text "old") [] [.Replace "div" 0 (.text "n")]
      = .ok []
    ∧ (sampleCreate (.text "n")).closures ≠ [] := by
  refine ⟨?_, by decide, ?_, by decide⟩
  · simp [apply_element_patch, rel_elMark7_reg7, Res.bind]
    exact ⟨rfl, rfl⟩
  · simp [patch, find_nodes, find_nodes_recursive, record_root, Patch.node_idx,
      Res.bind, patch_loop, apply_text_patch, List.lookup]

/-! ### C3: `TruncateChildren` -/

theorem with_children_self (node : DomNode) (h : node.isElement = true) :
    node.with_children node.child_nodes = node := by
  cases node <;> simp_all [DomNode.isElement, DomNode.with_children,
    DomNode.child_nodes]

/-- A retire that collected no ids leaves the registry alone and touches
nothing in the host tree. -/
theorem remove_event_listeners_no_ids (c : DomNode) (reg : ActiveClosure)
    (h : get_node_descendant_data_vdom_id c = .ok []) :
    remove_event_listeners c reg = .ok (reg, []) := by
  simp [remove_event_listeners, h, Res.bind, remove_listeners_loop]

/-- `retire_fold` over marker-free nodes: the registry is unchanged and the
trace is one `removeChild` per node. -/
theorem retire_fold_markerfree (cs : List DomNode) :
    ∀ reg : ActiveClosure,
    (∀ c ∈ cs, get_node_descendant_data_vdom_id c = .ok []) →
    retire_fold cs reg = .ok (reg, List.replicate cs.length Ev.removeChild) := by
  induction cs with
  | nil => intro reg _; rfl
  | cons c rest ih =>
    intro reg h
    have hrel := remove_event_listeners_no_ids c reg
      (h c (List.mem_cons_self c rest))
    have hrest := ih reg (fun x hx => h x (List.mem_cons_of_mem c hx))
    simp [retire_fold, hrel, hrest, Res.bind, List.replicate_succ]

/-- Refinement of the truncation loop on a comment-free removed segment:
running the loop for `back.length` iterations over `front ++ back` retires
the members of `back` last-first, removing each right after its retire, and
leaves exactly `front`. -/
theorem truncate_loop_spec (back : List DomNode) :
    ∀ (front : List DomNode) (reg : ActiveClosure),
    (∀ c ∈ back, c.isComment = false) →
    truncate_loop back.length (front ++ back) reg
      = Res.bind (retire_fold back.reverse reg)
          (fun r => .ok (front, r.1, r.2)) := by
  induction back using List.reverseRecOn with
  | nil =>
    intro front reg _
    simp [truncate_loop, retire_fold, Res.bind]
  | append_singleton bs b ih =>
    intro front reg h
    have hb : b.isComment = false := h b (by simp)
    have hassoc : front ++ (bs ++ [b]) = (front ++ bs) ++ [b] :=
      (List.append_assoc front bs [b]).symm
    rw [List.length_append, List.length_singleton, hassoc]
    simp only [truncate_loop, List.getLast?_concat, List.dropLast_concat]
    cases hrel : remove_event_listeners b reg with
    | jsErr e =>
      simp [Res.bind, hrel, retire_fold, List.reverse_append]
    | panicked m =>
      simp [Res.bind, hrel, retire_fold, List.reverse_append]
    | ok r1 =>
      have hbs : ∀ c ∈ bs, c.isComment = false :=
        fun c hc => h c (List.mem_append_left [b] hc)
      simp only [Res.bind, hrel, hb, Bool.false_eq_true, if_false,
        List.reverse_append, List.reverse_singleton, List.reverse_nil,
        List.singleton_append, retire_fold]
      rw [ih front r1.1 hbs]
      cases hfold : retire_fold bs.reverse r1.1 with
      | jsErr e => simp [Res.bind, hfold]
      | panicked m => simp [Res.bind, hfold]
      | ok r2 => simp [Res.bind, hfold]

/-- C3 (amended): `TruncateChildren` drops
`current_child_count - remaining_count` trailing children by retiring each
one and then removing it, last first, **when the dropped segment contains
no comment node** (a comment, once it becomes the last child, is retired
but skipped by the removal, and every later iteration re-processes it, so
removal stops there); with `remaining_count` equal to the current child
count the patch mutates nothing; and on marker-free dropped children the
result keeps exactly the first `remaining_count` children with one host
`removeChild` per dropped child. -/
theorem truncate_children_spec (create : CreateFn) (node : DomNode)
    (reg : ActiveClosure) (tag : String) (idx remaining : Nat)
    (hle : remaining ≤ node.child_nodes.length)
    (hnc : ∀ c ∈ node.child_nodes.drop remaining, c.isComment = false) :
    apply_element_patch create node reg (.TruncateChildren tag idx remaining)
      = Res.bind (retire_fold (node.child_nodes.drop remaining).reverse reg)
          (fun r => .ok ⟨node.with_children (node.child_nodes.take remaining),
            r.1, [], r.2⟩)
    ∧ ((∀ c ∈ node.child_nodes.drop remaining,
          get_node_descendant_data_vdom_id c = .ok []) →
        apply_element_patch create node reg
          (.TruncateChildren tag idx remaining)
          = .ok ⟨node.with_children (node.child_nodes.take remaining), reg, [],
              List.replicate (node.child_nodes.length - remaining)
                Ev.removeChild⟩)
    ∧ (∀ (node2 : DomNode) (reg2 : ActiveClosure), node2.isElement = true →
        apply_element_patch create node2 reg2
          (.TruncateChildren tag idx node2.child_nodes.length)
          = .ok ⟨node2, reg2, [], []⟩) := by
  have hmain :
      apply_element_patch create node reg (.TruncateChildren tag idx remaining)
        = Res.bind (retire_fold (node.child_nodes.drop remaining).reverse reg)
            (fun r => .ok ⟨node.with_children (node.child_nodes.take remaining),
              r.1, [], r.2⟩) := by
    have hnlt : ¬ (node.child_nodes.length < remaining) := not_lt.mpr hle
    have hfuel : node.child_nodes.length - remaining
        = (node.child_nodes.drop remaining).length := by
      simp [List.length_drop]
    have hsplit : node.child_nodes
        = node.child_nodes.take remaining ++ node.child_nodes.drop remaining :=
      (List.take_append_drop remaining node.child_nodes).symm
    have hinst := truncate_loop_spec (node.child_nodes.drop remaining)
      (node.child_nodes.take remaining) reg hnc
    rw [List.take_append_drop] at hinst
    rw [← hfuel] at hinst
    simp only [apply_element_patch, hnlt, if_false]
    rw [hinst, res_bind_assoc]
    exact res_bind_congr _ (fun a => rfl)
  refine ⟨hmain, ?_, ?_⟩
  · intro hmf
    rw [hmain, retire_fold_markerfree _ reg (fun c hc => hmf c (by
      simpa using hc))]
    simp [Res.bind, List.length_reverse, List.length_drop]
  · intro node2 reg2 h2
    have : ¬ (node2.child_nodes.length < node2.child_nodes.length) :=
      lt_irrefl _
    simp only [apply_element_patch, this, if_false, Nat.sub_self]
    simp [truncate_loop, Res.bind, with_children_self node2 h2]

/-- Witness for `truncate_children_spec`: truncating
`<div><div/>"t"</div>` to one remaining child retires and removes the
text child; truncating `elPlain` to its current child count is a no-op. -/
theorem truncate_children_spec_witness :
    apply_element_patch sampleCreate
      (.element "div" [] "" false "" [elPlain, .text "t"]) []
      (.TruncateChildren "div" 0 1)
      = .ok ⟨.element "div" [] "" false "" [elPlain], [], [],
          [Ev.removeChild]⟩
    ∧ apply_element_patch sampleCreate elPlain []
      (.TruncateChildren "div" 0 0) = .ok ⟨elPlain, [], [], []⟩ := by
  have h := truncate_children_spec sampleCreate
    (.element "div" [] "" false "" [elPlain, .text "t"]) [] "div" 0 1
    (by decide) (by
      intro c hc
      simp [DomNode.child_nodes] at hc
      subst hc
      rfl)
  constructor
  · have h2 := h.2.1 (by
      intro c hc
      simp [DomNode.child_nodes] at hc
      subst hc
      simp [get_node_descendant_data_vdom_id])
    simpa [DomNode.child_nodes, DomNode.with_children] using h2
  · exact h.2.2 elPlain [] (by decide)

/-- C3 counterexample: truncating an element whose children are a plain
element followed by a comment to `remaining_count = 0` removes nothing —
the comment is the last child from the start, so every iteration retires
and skips it — leaving the non-comment child in place. -/
theorem truncate_children_counterexample :
    apply_element_patch sampleCreate
      (.element "div" [] "" false "" [elPlain, .comment "mordor"]) []
      (.TruncateChildren "div" 0 0)
      = .ok ⟨.element "div" [] "" false "" [elPlain, .comment "mordor"],
          [], [], []⟩
    ∧ ([elPlain, DomNode.comment "mordor"].any
        (fun c => !c.isComment)) = true := by
  refine ⟨?_, by decide⟩
  have hcomment : remove_event_listeners (.comment "mordor") []
      = .ok ([], []) := by
    exact remove_event_listeners_no_ids _ _ (by
      simp [get_node_descendant_data_vdom_id])
  simp [apply_element_patch, truncate_loop, hcomment, Res.bind,
    DomNode.child_nodes, DomNode.with_children, DomNode.isComment]

/-! ### C6: `AddAttributes` -/

/-- The string an `AddAttributes` handler derives for the `value`
attribute: the scalar's text for `Simple` values, empty otherwise. -/
def value_string (av : AttributeValue) : String :=
  match av with
  | .Simple v => v.to_string
  | _ => ""

/-- C6: `AddAttributes` applies each attribute generically through
`set_attribute`, except that `value` goes through the host's value-setter,
`checked` goes through the host's checked-setter with a boolean derived
from the simple scalar value (false when absent or non-boolean),
`inner_html` sets raw markup from a `FunctionCall` value, and an attribute
with an empty name mutates nothing at all. -/
theorem add_attributes_spec (create : CreateFn) (reg : ActiveClosure)
    (tag : String) (idx : Nat) :
    (∀ (node : DomNode) (av : AttributeValue),
      apply_element_patch create node reg (.AddAttributes tag idx [("", av)])
        = .ok ⟨node, reg, [], []⟩)
    ∧ (∀ (node : DomNode) (av : AttributeValue),
        (node.isInput || node.isTextArea) = true →
        apply_element_patch create node reg
          (.AddAttributes tag idx [("value", av)])
          = .ok ⟨node.set_value (value_string av), reg, [],
              [Ev.setValue (value_string av)]⟩)
    ∧ (∀ (node : DomNode) (av : AttributeValue), node.isInput = true →
        apply_element_patch create node reg
          (.AddAttributes tag idx [("checked", av)])
          = .ok ⟨node.set_checked
              (((av.get_simple.map SimpleVal.as_bool).join).getD false),
              reg, [],
              [Ev.setChecked
                (((av.get_simple.map SimpleVal.as_bool).join).getD false)]⟩)
    ∧ (∀ (node : DomNode) (av : AttributeValue),
        apply_element_patch create node reg
          (.AddAttributes tag idx [("inner_html", av)])
          = .ok ⟨node.set_inner_html ((av.get_function_call_value).getD ""),
              reg, [],
              [Ev.setInnerHtml ((av.get_function_call_value).getD "")]⟩)
    ∧ (∀ (node : DomNode) (name : String) (av : AttributeValue),
        name.isEmpty = false → name ≠ "value" → name ≠ "checked" →
        name ≠ "inner_html" →
        apply_element_patch create node reg
          (.AddAttributes tag idx [(name, av)])
          = .ok ⟨node.set_attribute name
              ((av.get_simple.map SimpleVal.to_string).getD ""), reg, [],
              [Ev.setAttribute name
                ((av.get_simple.map SimpleVal.to_string).getD "")]⟩) := by
  refine ⟨?_, ?_, ?_, ?_, ?_⟩
  · intro node av
    simp [apply_element_patch, apply_add_attributes, apply_one_attribute,
      (show "".isEmpty = true from rfl)]
  · intro node av h
    cases hI : node.isInput with
    | true =>
      simp [apply_element_patch, apply_add_attributes, apply_one_attribute,
        hI, value_string, (show "value".isEmpty = false from rfl)]
    | false =>
      have hT : node.isTextArea = true := by simpa [hI] using h
      simp [apply_element_patch, apply_add_attributes, apply_one_attribute,
        hI, hT, value_string, (show "value".isEmpty = false from rfl)]
  · intro node av h
    simp [apply_element_patch, apply_add_attributes, apply_one_attribute, h,
      (show "checked".isEmpty = false from rfl)]
  · intro node av
    simp [apply_element_patch, apply_add_attributes, apply_one_attribute,
      (show "inner_html".isEmpty = false from rfl)]
  · intro node name av h0 h1 h2 h3
    simp only [apply_element_patch, apply_add_attributes, apply_one_attribute,
      h0, Bool.false_eq_true, if_false]
    simp

/-- Witness for `add_attributes_spec` on a concrete `<input>` element:
empty name mutates nothing; `value`, `checked` and `inner_html` go through
their dedicated setters; a generic attribute goes through
`set_attribute`. -/
theorem add_attributes_spec_witness :
    apply_element_patch sampleCreate (.element "input" [] "" false "" [])
      [] (.AddAttributes "input" 0 [("", .Simple (.str "x"))])
      = .ok ⟨.element "input" [] "" false "" [], [], [], []⟩
    ∧ apply_element_patch sampleCreate (.element "input" [] "" false "" [])
      [] (.AddAttributes "input" 0 [("value", .Simple (.str "v"))])
      = .ok ⟨.element "input" [] "v" false "" [], [], [],
          [Ev.setValue "v"]⟩
    ∧ apply_element_patch sampleCreate (.element "input" [] "" false "" [])
      [] (.AddAttributes "input" 0 [("checked", .Simple (.bool true))])
      = .ok ⟨.element "input" [] "" true "" [], [], [],
          [Ev.setChecked true]⟩
    ∧ apply_element_patch sampleCreate (.element "input" [] "" false "" [])
      [] (.AddAttributes "input" 0 [("checked", .Style ["color:red"])])
      = .ok ⟨.element "input" [] "" false "" [], [], [],
          [Ev.setChecked false]⟩
    ∧ apply_element_patch sampleCreate (.element "input" [] "" false "" [])
      [] (.AddAttributes "input" 0 [("inner_html", .FunctionCall "<b>")])
      = .ok ⟨.element "input" [] "" false "<b>" [], [], [],
          [Ev.setInnerHtml "<b>"]⟩
    ∧ apply_element_patch sampleCreate (.element "input" [] "" false "" [])
      [] (.AddAttributes "input" 0 [("class", .Simple (.str "frame"))])
      = .ok ⟨.element "input" [("class", "frame")] "" false "" [], [], [],
          [Ev.setAttribute "class" "frame"]⟩ := by
  have h := add_attributes_spec sampleCreate [] "input" 0
  refine ⟨h.1 _ _, ?_, ?_, ?_, ?_, ?_⟩
  · have := h.2.1 (.element "input" [] "" false "" [])
      (.Simple (.str "v")) (by decide)
    simpa [value_string, SimpleVal.to_string, DomNode.set_value] using this
  · have := h.2.2.1 (.element "input" [] "" false "" [])
      (.Simple (.bool true)) (by decide)
    simpa [AttributeValue.get_simple, SimpleVal.as_bool,
      DomNode.set_checked] using this
  · have := h.2.2.1 (.element "input" [] "" false "" [])
      (.Style ["color:red"]) (by decide)
    simpa [AttributeValue.get_simple, SimpleVal.as_bool,
      DomNode.set_checked] using this
  · have := h.2.2.2.1 (.element "input" [] "" false "" [])
      (.FunctionCall "<b>")
    simpa [AttributeValue.get_function_call_value,
      DomNode.set_inner_html] using this
  · have := h.2.2.2.2 (.element "input" [] "" false "" []) "class"
      (.Simple (.str "frame")) (by decide) (by decide) (by decide) (by decide)
    simpa [AttributeValue.get_simple, SimpleVal.to_string,
      DomNode.set_attribute, upsertAttr] using this

/-! ### C4: the Node Locator refines the pre-order enumeration -/

/-- The filter that selects, among enumerated nodes, the element entries
whose index is wanted. -/
def wantedElems (wanted : List Nat) (l : List (Nat × DomNode)) :
    List (Nat × DomNode) :=
  l.filter (fun p => p.2.isElement && wanted.contains p.1)

/-- The filter that selects, among enumerated nodes, the text entries
whose index is wanted. -/
def wantedTexts (wanted : List Nat) (l : List (Nat × DomNode)) :
    List (Nat × DomNode) :=
  l.filter (fun p => p.2.isTextNode && wanted.contains p.1)

/-- The child loop of the Locator computes exactly the wanted element/text
entries of the pre-order enumeration, and leaves the counter where the
enumeration leaves it. -/
theorem locator_children_spec (wanted : List Nat) (cs : List DomNode)
    (cur : Nat) (h : goodList cs = true) :
    find_nodes_in_children cs cur wanted
      = .ok (wantedElems wanted (enum_list cs cur).1,
          wantedTexts wanted (enum_list cs cur).1, (enum_list cs cur).2) := by
  match cs with
  | [] => simp [find_nodes_in_children, enum_list, wantedElems, wantedTexts]
  | (DomNode.element tag attrs value checked innerHtml cs') :: rest =>
    have hc : goodList cs' = true := by
      have := h
      simp [goodList, goodNode] at this
      exact this.1
    have hr : goodList rest = true := by
      have := h
      simp [goodList, goodNode] at this
      exact this.2
    have ih1 := locator_children_spec wanted cs' (cur + 1) hc
    have ih2 := locator_children_spec wanted rest
      (enum_list cs' (cur + 1)).2 hr
    simp only [find_nodes_in_children, find_nodes_recursive, record_root,
      enum_list, enum_node]
    by_cases hw : cur ∈ wanted
    · simp [hw, Res.bind, ih1, ih2, wantedElems, wantedTexts,
        List.filter_cons, List.filter_append, DomNode.isElement,
        DomNode.isTextNode]
    · simp [hw, Res.bind, ih1, ih2, wantedElems, wantedTexts,
        List.filter_cons, List.filter_append, DomNode.isElement,
        DomNode.isTextNode]
  | (DomNode.text s) :: rest =>
    have hr : goodList rest = true := by
      have := h
      simp [goodList, goodNode] at this
      exact this
    have ih2 := locator_children_spec wanted rest (cur + 1) hr
    simp only [find_nodes_in_children, enum_list, enum_node]
    by_cases hw : cur ∈ wanted
    · simp [hw, Res.bind, ih2, wantedElems, wantedTexts, List.filter_cons,
        DomNode.isElement, DomNode.isTextNode]
    · simp [hw, Res.bind, ih2, wantedElems, wantedTexts, List.filter_cons,
        DomNode.isElement, DomNode.isTextNode]
  | (DomNode.comment s) :: rest =>
    have hr : goodList rest = true := by
      have := h
      simp [goodList, goodNode] at this
      exact this
    have ih2 := locator_children_spec wanted rest cur hr
    simpa [find_nodes_in_children, enum_list, enum_node] using ih2
  | (DomNode.unsupported k ucs) :: rest =>
    exact absurd h (by simp [goodList, goodNode])
termination_by sizeOf cs

/-- The Locator's recursive traversal, on trees free of unsupported nodes
and rooted at an element or text node, refines the pre-order
enumeration. -/
theorem locator_root_spec (root : DomNode) (cur : Nat) (wanted : List Nat)
    (hg : goodNode root = true) (hnc : root.isComment = false) :
    find_nodes_recursive root cur wanted
      = .ok (wantedElems wanted (enum_node root cur).1,
          wantedTexts wanted (enum_node root cur).1,
          (enum_node root cur).2) := by
  cases root with
  | element tag attrs value checked innerHtml cs =>
    have hc : goodList cs = true := by simpa [goodNode] using hg
    have ih := locator_children_spec wanted cs (cur + 1) hc
    simp only [find_nodes_recursive, record_root, enum_node]
    by_cases hw : cur ∈ wanted
    · simp [hw, Res.bind, ih, wantedElems, wantedTexts, List.filter_cons,
        DomNode.isElement, DomNode.isTextNode]
    · simp [hw, Res.bind, ih, wantedElems, wantedTexts, List.filter_cons,
        DomNode.isElement, DomNode.isTextNode]
  | text s =>
    simp only [find_nodes_recursive, record_root, enum_node]
    by_cases hw : cur ∈ wanted
    · simp [hw, Res.bind, wantedElems, wantedTexts, List.filter_cons,
        DomNode.isElement, DomNode.isTextNode]
    · simp [hw, Res.bind, wantedElems, wantedTexts, List.filter_cons,
        DomNode.isElement, DomNode.isTextNode]
  | comment s => exact absurd hnc (by simp [DomNode.isComment])
  | unsupported k ucs => exact absurd hg (by simp [goodNode])

/-- C4: on a live tree free of unsupported nodes whose root is an element
or text node, the Locator's single traversal records exactly those nodes
whose running pre-order index — a numbering in which elements and text
nodes share one index space and comments neither get an index nor shift
it — lies in the set of `node_idx` values of the patch list, partitioned
into the element map and the text map by node kind; consequently the keys
of both returned mappings are a subset of the `node_idx` values referenced
by the patch list. -/
theorem find_nodes_spec (root : DomNode) (patches : List Patch)
    (hg : goodNode root = true) (hnc : root.isComment = false) :
    find_nodes root patches
      = .ok (wantedElems (patches.map Patch.node_idx) (enum_node root 0).1,
          wantedTexts (patches.map Patch.node_idx) (enum_node root 0).1,
          (enum_node root 0).2)
    ∧ (∀ emap tmap total,
        find_nodes root patches = .ok (emap, tmap, total) →
        (∀ k ∈ emap.map Prod.fst, k ∈ patches.map Patch.node_idx)
        ∧ (∀ k ∈ tmap.map Prod.fst, k ∈ patches.map Patch.node_idx)) := by
  have hmain := locator_root_spec root 0 (patches.map Patch.node_idx) hg hnc
  refine ⟨hmain, ?_⟩
  intro emap tmap total heq
  simp only [find_nodes] at heq
  rw [hmain] at heq
  cases heq
  constructor
  · intro k hk
    obtain ⟨p, hp, hpk⟩ := List.mem_map.mp hk
    have hx : ∃ a ∈ patches, a.node_idx = p.1 := by
      have := hp
      simp [wantedElems, List.mem_filter] at this
      exact this.2.2
    obtain ⟨a, ha, hak⟩ := hx
    subst hpk
    exact List.mem_map.mpr ⟨a, ha, hak⟩
  · intro k hk
    obtain ⟨p, hp, hpk⟩ := List.mem_map.mp hk
    have hx : ∃ a ∈ patches, a.node_idx = p.1 := by
      have := hp
      simp [wantedTexts, List.mem_filter] at this
      exact this.2.2
    obtain ⟨a, ha, hak⟩ := hx
    subst hpk
    exact List.mem_map.mpr ⟨a, ha, hak⟩

/-- Witness for `find_nodes_spec` on the tree
`<div>"a"<!--m--><div>"b"</div></div>` with patches touching indices 1 and
2: index 1 is the text `"a"`, index 2 the inner element, the comment gets
no index, and the counter ends at 4. -/
theorem find_nodes_spec_witness :
    find_nodes
      (.element "div" [] "" false ""
        [.text "a", .comment "m",
          .element "div" [] "" false "" [.text "b"]])
      [.ChangeText 1 "x", .AddAttributes "div" 2 []]
      = .ok ([(2, .element "div" [] "" false "" [.text "b"])],
          [(1, .text "a")], 4) := by
  have h := (find_nodes_spec
    (.element "div" [] "" false ""
      [.text "a", .comment "m",
        .element "div" [] "" false "" [.text "b"]])
    [.ChangeText 1 "x", .AddAttributes "div" 2 []]
    (by decide) (by decide)).1
  rw [h]
  simp [enum_node, enum_list, wantedElems, wantedTexts, Patch.node_idx,
    DomNode.isElement, DomNode.isTextNode]

/-! ### C7: unsupported node kinds during traversal -/

/-- C7 (amended): an unsupported child node is skipped silently — without
incrementing the counter, without being recursed into, and without
affecting the traversal's outcome in any way — while an unsupported
**root** node whose counter value is wanted is fatal: the traversal panics
through `unimplemented!` instead of warning and continuing. -/
theorem locator_unsupported_spec :
    (∀ (pre post : List DomNode) (k : Nat) (ucs : List DomNode) (cur : Nat)
      (wanted : List Nat),
      find_nodes_in_children (pre ++ .unsupported k ucs :: post) cur wanted
        = find_nodes_in_children (pre ++ post) cur wanted)
    ∧ (∀ (k : Nat) (ucs : List DomNode) (cur : Nat) (wanted : List Nat),
        wanted.contains cur = true →
        find_nodes_recursive (.unsupported k ucs) cur wanted
          = .panicked "Unsupported root node type") := by
  constructor
  · intro pre post k ucs cur wanted
    induction pre generalizing cur with
    | nil => simp [find_nodes_in_children]
    | cons c pre' ih =>
      cases c with
      | element tag attrs value checked innerHtml cs =>
        simp only [List.cons_append, find_nodes_in_children, List.append_eq]
        exact res_bind_congr _ (fun r => by rw [ih r.2.2])
      | text s =>
        simp only [List.cons_append, find_nodes_in_children, List.append_eq]
        rw [ih (cur + 1)]
      | comment s =>
        simp only [List.cons_append, find_nodes_in_children, List.append_eq]
        exact ih cur
      | unsupported k2 ucs2 =>
        simp only [List.cons_append, find_nodes_in_children, List.append_eq]
        exact ih cur
  · intro k ucs cur wanted hw
    have hw2 : cur ∈ wanted := by simpa using hw
    simp [find_nodes_recursive, record_root, hw2, Res.bind]

/-- Witness for `locator_unsupported_spec`: dropping an unsupported child
between two text children changes nothing, and an unsupported root whose
index 0 is wanted panics. -/
theorem locator_unsupported_spec_witness :
    find_nodes_in_children [.text "a", .unsupported 11 [], .text "b"] 0 [1]
      = find_nodes_in_children [.text "a", .text "b"] 0 [1]
    ∧ find_nodes_recursive (.unsupported 11 []) 0 [0]
      = .panicked "Unsupported root node type" :=
  ⟨locator_unsupported_spec.1 [.text "a"] [.text "b"] 11 [] 0 [1],
    locator_unsupported_spec.2 11 [] 0 [0] (by decide)⟩

/-- C7 counterexample: a node of unsupported kind as the visited root with
its index wanted is not skipped with a warning — the whole traversal
aborts fatally. -/
theorem locator_unsupported_counterexample :
    find_nodes (.unsupported 11 []) [.ChangeText 0 "x"]
      = .panicked "Unsupported root node type"
    ∧ (find_nodes (.unsupported 11 []) [.ChangeText 0 "x"]).isPanic
      = true := by
  have h : find_nodes (.unsupported 11 []) [.ChangeText 0 "x"]
      = .panicked "Unsupported root node type" := by
    simp [find_nodes, find_nodes_recursive, record_root, Patch.node_idx,
      Res.bind]
  exact ⟨h, by rw [h]; rfl⟩

/-! ### C5: structural inconsistencies abort the cycle -/

theorem res_not_ok_of_panic {α : Type} {x : Res α} (h : x.isPanic = true) :
    x.isOk = false := by
  cases x <;> simp_all [Res.isPanic, Res.isOk]

/-- A patch hitting one of the structural-inconsistency paths makes the
patch loop abort at once. -/
theorem patch_loop_bad_head (create : CreateFn) (emap tmap : NodeMap)
    (p : Patch) (rest : List Patch) (old acc : ActiveClosure)
    (h : bad_patch emap tmap p = true) :
    (patch_loop create emap tmap (p :: rest) old acc).isPanic = true := by
  cases he : emap.lookup p.node_idx with
  | some el =>
    cases p with
    | ChangeText i s =>
      simp [patch_loop, he, apply_element_patch, Res.bind, Res.isPanic]
    | AddAttributes t i a => exact absurd h (by simp [bad_patch, he])
    | RemoveAttributes t i a => exact absurd h (by simp [bad_patch, he])
    | Replace t i vn => exact absurd h (by simp [bad_patch, he])
    | TruncateChildren t i n => exact absurd h (by simp [bad_patch, he])
    | AppendChildren t i vns => exact absurd h (by simp [bad_patch, he])
  | none =>
    cases ht : tmap.lookup p.node_idx with
    | some tn =>
      cases p with
      | ChangeText i s => exact absurd h (by simp [bad_patch, he, ht])
      | Replace t i vn => exact absurd h (by simp [bad_patch, he, ht])
      | AddAttributes t i a =>
        simp [patch_loop, he, ht, apply_text_patch, Res.bind, Res.isPanic]
      | RemoveAttributes t i a =>
        simp [patch_loop, he, ht, apply_text_patch, Res.bind, Res.isPanic]
      | TruncateChildren t i n =>
        simp [patch_loop, he, ht, apply_text_patch, Res.bind, Res.isPanic]
      | AppendChildren t i vns =>
        simp [patch_loop, he, ht, apply_text_patch, Res.bind, Res.isPanic]
    | none =>
      simp [patch_loop, he, ht, Res.isPanic]

/-- Once some patch in the list is structurally inconsistent, the loop can
never return `Ok`: it either aborts at that patch or aborted earlier. -/
theorem patch_loop_bad_not_ok (create : CreateFn) (emap tmap : NodeMap) :
    ∀ (patches : List Patch) (old acc : ActiveClosure),
    (∃ p ∈ patches, bad_patch emap tmap p = true) →
    (patch_loop create emap tmap patches old acc).isOk = false := by
  intro patches
  induction patches with
  | nil =>
    intro old acc h
    obtain ⟨p, hp, _⟩ := h
    exact absurd hp (List.not_mem_nil p)
  | cons p rest ih =>
    intro old acc h
    by_cases hb : bad_patch emap tmap p = true
    · exact res_not_ok_of_panic
        (patch_loop_bad_head create emap tmap p rest old acc hb)
    · obtain ⟨q, hq, hqbad⟩ := h
      have hqrest : q ∈ rest := by
        rcases List.mem_cons.mp hq with he | hr
        · exact absurd (he ▸ hqbad) hb
        · exact hr
      cases he : emap.lookup p.node_idx with
      | some el =>
        cases hres : apply_element_patch create el old p with
        | ok r =>
          simpa [patch_loop, he, hres, Res.bind] using
            ih r.registry (acc.extend r.closures) ⟨q, hqrest, hqbad⟩
        | jsErr e => simp [patch_loop, he, hres, Res.bind, Res.isOk]
        | panicked m => simp [patch_loop, he, hres, Res.bind, Res.isOk]
      | none =>
        cases ht : tmap.lookup p.node_idx with
        | some tn =>
          cases hres : apply_text_patch create tn p with
          | ok r =>
            simpa [patch_loop, he, ht, hres, Res.bind] using
              ih old acc ⟨q, hqrest, hqbad⟩
          | jsErr e => simp [patch_loop, he, ht, hres, Res.bind, Res.isOk]
          | panicked m => simp [patch_loop, he, ht, hres, Res.bind, Res.isOk]
        | none =>
          exact absurd (by simp [bad_patch, he, ht]) hb

/-- C5: when a patch references a `node_idx` the Locator never resolved, or
targets a node kind that mismatches what the Locator found (a `ChangeText`
patch against an element, or any patch other than `ChangeText`/`Replace`
against a text node), `patch` surfaces this as an unrecoverable abort of
the cycle — the result is never `Ok`, and when the offending patch is
reached first the outcome is the abort itself — rather than retrying or
continuing. -/
theorem patch_structural_inconsistency (create : CreateFn) (root : DomNode)
    (old : ActiveClosure) (patches : List Patch) (emap tmap : NodeMap)
    (total : Nat)
    (hfind : find_nodes root patches = .ok (emap, tmap, total)) :
    ((∃ p ∈ patches, bad_patch emap tmap p = true) →
      (patch create root old patches).isOk = false)
    ∧ (∀ (p : Patch) (rest : List Patch), patches = p :: rest →
        bad_patch emap tmap p = true →
        (patch create root old patches).isPanic = true) := by
  constructor
  · intro h
    simpa [patch, hfind, Res.bind] using
      patch_loop_bad_not_ok create emap tmap patches old [] h
  · intro p rest hps hb
    subst hps
    simpa [patch, hfind, Res.bind] using
      patch_loop_bad_head create emap tmap p rest old [] hb

/-- Witness for `patch_structural_inconsistency` on the live tree
`<div>"a"</div>`: an `AddAttributes` aimed at the text node (index 1), a
`ChangeText` aimed at the element (index 0), and a patch whose index 5 was
never resolved each abort the cycle. -/
theorem patch_structural_inconsistency_witness :
    (patch sampleCreate (.element "div" [] "" false "" [.text "a"]) []
      [.AddAttributes "div" 1 []]).isPanic = true
    ∧ (patch sampleCreate (.element "div" [] "" false "" [.text "a"]) []
      [.ChangeText 0 "x"]).isPanic = true
    ∧ (patch sampleCreate (.element "div" [] "" false "" [.text "a"]) []
      [.ChangeText 5 "x"]).isPanic = true := by
  have h1 : find_nodes (.element "div" [] "" false "" [.text "a"])
      [.AddAttributes "div" 1 []]
      = .ok ([], [(1, .text "a")], 2) := by
    simp [find_nodes, find_nodes_recursive, find_nodes_in_children,
      record_root, Patch.node_idx, Res.bind]
  have h2 : find_nodes (.element "div" [] "" false "" [.text "a"])
      [.ChangeText 0 "x"]
      = .ok ([(0, .element "div" [] "" false "" [.text "a"])], [], 2) := by
    simp [find_nodes, find_nodes_recursive, find_nodes_in_children,
      record_root, Patch.node_idx, Res.bind]
  have h3 : find_nodes (.element "div" [] "" false "" [.text "a"])
      [.ChangeText 5 "x"]
      = .ok ([], [], 2) := by
    simp [find_nodes, find_nodes_recursive, find_nodes_in_children,
      record_root, Patch.node_idx, Res.bind]
  refine ⟨?_, ?_, ?_⟩
  · exact (patch_structural_inconsistency sampleCreate _ [] _ _ _ _ h1).2
      _ _ rfl (by decide)
  · exact (patch_structural_inconsistency sampleCreate _ [] _ _ _ _ h2).2
      _ _ rfl (by decide)
  · exact (patch_structural_inconsistency sampleCreate _ [] _ _ _ _ h3).2
      _ _ rfl (by decide)

/-! ### C8: renderer child layout -/

mutual

/-- The rendered text never depends on the threaded `node_idx` counter
(the `with-measure` feature is disabled). -/
theorem render_idx_indep (merge : List RAttr → List RAttr) (node : RNode)
    (indent : Nat) (i j : Option Nat) :
    (render_with_indent merge node indent i).1
      = (render_with_indent merge node indent j).1 := by
  cases node with
  | text s => rfl
  | element tag attrs children =>
    simp only [render_with_indent]
    cases hl : children.length == 1
        && ((children.get? 0).map RNode.is_text).getD false with
    | true =>
      simp [hl]
      rw [render_lone_idx_indep merge children indent i j]
    | false =>
      simp [hl]
      rw [render_children_idx_indep merge children indent i j]

/-- `node_idx`-independence for the non-inline child loop. -/
theorem render_children_idx_indep (merge : List RAttr → List RAttr)
    (cs : List RNode) (indent : Nat) (i j : Option Nat) :
    (render_children merge cs indent i).1
      = (render_children merge cs indent j).1 := by
  cases cs with
  | nil => rfl
  | cons c rest =>
    simp only [render_children]
    rw [render_idx_indep merge c (indent + 1) (i.map (· + 1))
      (j.map (· + 1))]
    rw [render_children_idx_indep merge rest indent
      ((render_with_indent merge c (indent + 1) (i.map (· + 1))).2)
      ((render_with_indent merge c (indent + 1) (j.map (· + 1))).2)]

/-- `node_idx`-independence for the inline branch. -/
theorem render_lone_idx_indep (merge : List RAttr → List RAttr)
    (cs : List RNode) (indent : Nat) (i j : Option Nat) :
    (render_lone_child merge cs indent i).1
      = (render_lone_child merge cs indent j).1 := by
  cases cs with
  | nil => rfl
  | cons fc rest =>
    simp only [render_lone_child]
    exact render_idx_indep merge fc indent (i.map (· + 1)) (j.map (· + 1))

end

theorem string_foldl_append (l : List String) : ∀ x : String,
    List.foldl (fun r s => r ++ s) x l
      = x ++ List.foldl (fun r s => r ++ s) "" l := by
  induction l with
  | nil => intro x; simp
  | cons a rest ih =>
    intro x
    simp only [List.foldl_cons]
    rw [ih (x ++ a), ih ("" ++ a)]
    simp [String.append_assoc]

theorem string_join_cons (a : String) (l : List String) :
    String.join (a :: l) = a ++ String.join l := by
  simp only [String.join, List.foldl_cons]
  rw [string_foldl_append l ("" ++ a)]
  simp

/-- The non-inline child loop prints every child on its own line, indented
one more level. -/
theorem render_children_join (merge : List RAttr → List RAttr)
    (cs : List RNode) : ∀ (indent : Nat) (idx : Option Nat),
    (render_children merge cs indent idx).1
      = String.join (cs.map (fun c => "\n" ++ indentStr (indent + 1)
          ++ (render_with_indent merge c (indent + 1) none).1)) := by
  induction cs with
  | nil => intro indent idx; rfl
  | cons c rest ih =>
    intro indent idx
    simp only [render_children, List.map_cons]
    rw [string_join_cons]
    rw [render_idx_indep merge c (indent + 1) (idx.map (· + 1)) none]
    rw [ih indent ((render_with_indent merge c (indent + 1)
      (idx.map (· + 1))).2)]

/-- C8: an element whose children are exactly one text node renders that
text inline on the same line as the opening tag, with no indentation and
no newline before the closing tag; an element with a non-empty child list
that is not this lone-text case prints each child on its own line indented
four spaces per depth level, with a trailing newline-and-indent before the
closing tag. -/
theorem render_element_layout (merge : List RAttr → List RAttr) :
    (∀ (tag : String) (attrs : List RAttr) (s : String) (indent : Nat)
      (idx : Option Nat),
      (render_with_indent merge (.element tag attrs [.text s]) indent idx).1
        = openTag merge tag attrs ++ s ++ "</" ++ tag ++ ">")
    ∧ (∀ (tag : String) (attrs : List RAttr) (children : List RNode)
        (indent : Nat) (idx : Option Nat),
        children ≠ [] →
        (children.length == 1
          && ((children.get? 0).map RNode.is_text).getD false) = false →
        (render_with_indent merge (.element tag attrs children) indent idx).1
          = openTag merge tag attrs
            ++ String.join (children.map (fun c =>
                "\n" ++ indentStr (indent + 1)
                ++ (render_with_indent merge c (indent + 1) none).1))
            ++ "\n" ++ indentStr indent ++ "</" ++ tag ++ ">") := by
  constructor
  · intro tag attrs s indent idx
    simp [render_with_indent, render_lone_child, openTag, RNode.is_text,
      String.append_assoc]
  · intro tag attrs children indent idx hne hl
    have hempty : children.isEmpty = false := by
      cases children with
      | nil => exact absurd rfl hne
      | cons c rest => rfl
    simp only [render_with_indent, hl, Bool.false_eq_true, if_false,
      hempty, Bool.not_false, Bool.and_self, if_true]
    rw [render_children_join merge children indent idx]
    simp [openTag, String.append_assoc]

/-- Witness for `render_element_layout`: `<div>hello</div>` renders inline,
while `<div><p></p>"t"</div>` puts each child on its own indented line. -/
theorem render_element_layout_witness :
    (render_with_indent (fun l => l) (.element "div" [] [.text "hello"]) 0
      (some 0)).1 = "<div>hello</div>"
    ∧ (render_with_indent (fun l => l)
      (.element "div" [] [.element "p" [] [], .text "t"]) 0 (some 0)).1
      = "<div>\n    <p></p>\n    t\n</div>" := by
  have h := render_element_layout (fun l => l)
  constructor
  · rw [h.1 "div" [] "hello" 0 (some 0)]
    rfl
  · rw [h.2 "div" [] [.element "p" [] [], .text "t"] 0 (some 0)
      (by simp) (by decide)]
    simp [render_with_indent, render_children, render_lone_child, openTag,
      indentStr]
    rfl

end Sauron
